import Mathlib

/-!
Verification of `server/prompt.go` (template-based chat prompt building with
token-budget truncation).

The Go source is shallowly embedded below.  The template parse tree
(`text/template/parse`) is modelled by the `Node`/`Pipe`/`Cmd`/`Arg` types,
restricted to the shape `isResponseNode` inspects (action nodes wrapping a
pipeline of commands whose arguments may be field references).  Template
parsing is external to the repository, so `Prompt` here takes the compiled
top-level node sequence (`Tree.Root.Nodes`) directly; template execution is
modelled from the spec (see `execNodes`).  Go `int` values that can go
negative (`tokens`, `window`) are `Int`; the image ordinal counter is `Nat`.
Fallible operations return `Except String α`, where `.error e` corresponds to
the Go convention of returning the zero value `""` together with a non-nil
error.
-/

set_option linter.unusedVariables false
set_option linter.dupNamespace false

namespace OllamaPrompt

/-- An argument of a template command: a field reference (dotted identifier
path, e.g. `.Response`) or any other argument shape, which the code under
verification never inspects. -/
inductive Arg where
  | field (ident : List String)
  | otherArg (s : String)
deriving DecidableEq

/-- A command inside a template pipeline (`parse.CommandNode`). -/
structure Cmd where
  Args : List Arg
deriving DecidableEq

/-- A template pipeline (`parse.PipeNode`). -/
structure Pipe where
  Cmds : List Cmd
deriving DecidableEq

/-- A top-level template node: literal text, or an action node wrapping a
pipeline (`parse.ActionNode`). -/
inductive Node where
  | text (s : String)
  | action (pipe : Pipe)
deriving DecidableEq

/-- `isResponseNode` checks if the node contains `.Response`: some argument of
some command of the pipeline is a field reference with a non-empty identifier
path whose first component is `"Response"`. -/
def isResponseNode (pipe : Pipe) : Bool :=
  pipe.Cmds.any fun cmd =>
    cmd.Args.any fun arg =>
      match arg with
      | .field (ident0 :: _) => ident0 == "Response"
      | _ => false

/-- The action-node check performed inline by `formatTemplateForResponse`:
a node is a response marker when it is an action node and `isResponseNode`
holds of its pipeline. -/
def isResponseAction : Node → Bool
  | .action pipe => isResponseNode pipe
  | _ => false

/-- The bare `.Response` field reference appended by
`formatTemplateForResponse` when no marker exists. -/
def responseFieldNode : Arg := .field ["Response"]

def responsePipeNode : Pipe := { Cmds := [{ Args := [responseFieldNode] }] }

def responseActionNode : Node := .action responsePipeNode

/-- Index of the first top-level response marker, scanning in order, as the
loop in `formatTemplateForResponse` does. -/
def firstResponseIdx : List Node → Option Nat
  | [] => none
  | n :: rest =>
    if isResponseAction n then some 0
    else (firstResponseIdx rest).map (· + 1)

/-- `formatTemplateForResponse` rewrites the top-level node sequence:
if a response marker is found and `cut` is set, keep exactly the nodes up to
and including the first marker; if no marker is found, append a bare
`.Response` action node at the end; otherwise leave the sequence unchanged. -/
def formatTemplateForResponse (nodes : List Node) (cut : Bool) : List Node :=
  match firstResponseIdx nodes with
  | some i => if cut then nodes.take (i + 1) else nodes
  | none => nodes ++ [responseActionNode]

/-- Modelled from the spec: the external template executor binds the three
named values `System`, `Prompt`, `Response`; under the `missingkey=zero`
policy an unresolved field reference renders as the empty string. -/
def lookupVar (system prompt response root : String) : String :=
  if root == "System" then system
  else if root == "Prompt" then prompt
  else if root == "Response" then response
  else ""

/-- Modelled from the spec: rendering of a single command argument. -/
def execArg (system prompt response : String) : Arg → String
  | .field [] => ""
  | .field (root :: _) => lookupVar system prompt response root
  | .otherArg s => s

/-- Modelled from the spec: the value of a pipeline, for the shapes this
repository constructs and inspects (a command whose first argument is a field
reference). -/
def execPipe (system prompt response : String) (pipe : Pipe) : String :=
  match pipe.Cmds with
  | [] => ""
  | cmd :: _ =>
    match cmd.Args with
    | [] => ""
    | arg :: _ => execArg system prompt response arg

/-- Modelled from the spec: rendering of one top-level node. -/
def execNode (system prompt response : String) : Node → String
  | .text s => s
  | .action pipe => execPipe system prompt response pipe

/-- Modelled from the spec: executing a tree renders each top-level node in
order and concatenates the results. -/
def execNodes (system prompt response : String) : List Node → String
  | [] => ""
  | n :: rest => execNode system prompt response n ++ execNodes system prompt response rest

/-- `Prompt` from the Go source: compile the template (here: the already
compiled top-level node sequence), apply `formatTemplateForResponse`, bind the
three variables and execute.  The external parse/execute failure modes are
outside the model, so the result is a plain string. -/
def Prompt (tmpl : List Node) (system prompt response : String) (cut : Bool) : String :=
  execNodes system prompt response (formatTemplateForResponse tmpl cut)

/-- `countTokens`: render with `cut = false` and return the length of the
external encoder's token sequence. -/
def countTokens (tmpl : List Node) (system prompt response : String)
    (encode : String → Except String (List Int)) : Except String Int := do
  let tokens ← encode (Prompt tmpl system prompt response false)
  pure (tokens.length : Int)

/-- `llm.ImageData`. -/
structure ImageData where
  ID : Nat
  Data : List Nat
deriving DecidableEq

/-- `api.Message`: the external input record. -/
structure Message where
  Role : String
  Content : String
  Images : List (List Nat)
deriving DecidableEq

/-- The local `prompt` struct of `ChatPrompt`; field defaults are the Go zero
values, so `{}` is Go's `prompt{}`. -/
structure prompt where
  System : String := ""
  system : Bool := false
  Prompt : String := ""
  prompt : Bool := false
  Response : String := ""
  response : Bool := false
  Images : List ImageData := []
  tokens : Int := 0
deriving DecidableEq

/-- The image loop of the `"user"` case: for each attached image, append
`" [img-N]"` to the accumulated prompt text (N the running global ordinal),
append an `ImageData` record with that ordinal, and increment the ordinal. -/
def addImages (p : prompt) (datas : List (List Nat)) (images : Nat) : prompt × Nat :=
  match datas with
  | [] => (p, images)
  | d :: rest =>
    addImages
      { p with
        Prompt := p.Prompt ++ " [img-" ++ toString images ++ "]",
        Images := p.Images ++ [{ ID := images, Data := d }] }
      rest (images + 1)

/-- The external `strings.ToLower` used on roles (ASCII case mapping, which
is all the role comparisons exercise). -/
def strToLower (s : String) : String := ⟨s.data.map Char.toLower⟩

/-- The message walk of `ChatPrompt`: fold the messages into flushed prompts
`ps` and a current prompt `p`, threading the global image ordinal.  Returns
the Go error value on an unrecognized role. -/
def segMsgs : List Message → List prompt → prompt → Nat → Except String (List prompt × prompt)
  | [], ps, p, _ => .ok (ps, p)
  | msg :: rest, ps, p, images =>
    if strToLower msg.Role == "system" then
      let ps1 := if p.system || p.prompt || p.response then ps ++ [p] else ps
      let p1 := if p.system || p.prompt || p.response then ({} : prompt) else p
      segMsgs rest ps1 { p1 with System := msg.Content, system := true } images
    else if strToLower msg.Role == "user" then
      let ps1 := if p.prompt || p.response then ps ++ [p] else ps
      let p1 := if p.prompt || p.response then ({} : prompt) else p
      let r := addImages { p1 with Prompt := msg.Content, prompt := true } msg.Images images
      segMsgs rest ps1 r.1 r.2
    else if strToLower msg.Role == "assistant" then
      let ps1 := if p.response then ps ++ [p] else ps
      let p1 := if p.response then ({} : prompt) else p
      segMsgs rest ps1 { p1 with Response := msg.Content, response := true } images
    else
      .error ("invalid role: " ++ msg.Role ++ ", role must be one of [system, user, assistant]")

/-- Segmentation stage of `ChatPrompt`: the first prompt is pre-seeded with
the system prompt of the globally loaded model (`loaded.Model.System`, a
package-level variable declared outside this file, threaded here as the
explicit argument `loadedModelSystem`); after the walk, a trailing prompt
with any populated slot is flushed. -/
def segment (loadedModelSystem : String) (messages : List Message) :
    Except String (List prompt) := do
  let p0 : prompt := { System := loadedModelSystem, system := true }
  let r ← segMsgs messages [] p0 0
  let ps := r.1
  let p := r.2
  if p.system || p.prompt || p.response then .ok (ps ++ [p]) else .ok ps

/-- The token-costing pass of `ChatPrompt`.  The Go loop ranges by value
(`for _, p := range prompts`), so the assignment `p.tokens = tokens + ...`
writes to a per-iteration copy: errors from `countTokens` propagate, but the
prompts in the slice are returned unchanged (their `tokens` fields keep their
previous value, zero). -/
def costPass (tmpl : List Node) (encode : String → Except String (List Int)) :
    List prompt → Except String (List prompt)
  | [] => .ok []
  | p :: rest => do
    let _tokens ← countTokens tmpl p.System p.Prompt p.Response encode
    let rest1 ← costPass tmpl encode rest
    .ok (p :: rest1)

/-- The per-iteration total of the truncation loop. -/
def totalTokens (ps : List prompt) : Int :=
  (ps.map (fun p => p.tokens)).sum

/-- Termination measure for the truncation loop: every `continue` removes an
image or a whole prompt. -/
def promptsMeasure (ps : List prompt) : Nat :=
  ps.length + (ps.map (fun p => p.Images.length)).sum

/-- The truncation loop of `ChatPrompt`: while the total exceeds the window,
first drop the oldest image of the oldest prompt (768 tokens), else drop the
oldest prompt, carrying a non-empty system prompt forward onto the new oldest
prompt (recosting it) and then stopping; with a single prompt left, give up.
The `[]` branch is unreachable from `ChatPrompt` (segmentation always yields
a non-empty list, proved below); Go would panic there. -/
def truncLoop (tmpl : List Node) (encode : String → Except String (List Int))
    (window : Int) (ps : List prompt) : Except String (List prompt) :=
  if totalTokens ps ≤ window then
    .ok ps
  else
    match ps with
    | [] => .ok []
    | p :: rest =>
      if himg : p.Images.length > 1 then
        truncLoop tmpl encode window
          ({ p with Images := p.Images.tail, tokens := p.tokens - 768 } :: rest)
      else
        match rest with
        | [] => .ok [p]
        | q :: rs =>
          if p.System == "" then
            truncLoop tmpl encode window (q :: rs)
          else if q.System == "" then
            match countTokens tmpl p.System q.Prompt q.Response encode with
            | .error e => .error e
            | .ok tokens =>
              .ok ({ q with
                     System := p.System,
                     tokens := tokens + (q.Images.length : Int) * 768 } :: rs)
          else
            .ok (q :: rs)
termination_by promptsMeasure ps
decreasing_by
  · simp only [promptsMeasure, List.length_cons, List.map_cons, List.sum_cons,
      List.length_tail]
    omega
  · simp only [promptsMeasure, List.length_cons, List.map_cons, List.sum_cons]
    omega

/-- The final rendering loop of `ChatPrompt`: render each surviving prompt
with `cut = true` and concatenate. -/
def renderAll (tmpl : List Node) : List prompt → String
  | [] => ""
  | p :: rest => Prompt tmpl p.System p.Prompt p.Response true ++ renderAll tmpl rest

/-- The prompts surviving at the final-render step of `ChatPrompt`:
segmentation, then the token-costing pass, then the truncation loop. -/
def survivingPrompts (loadedModelSystem : String) (tmpl : List Node)
    (messages : List Message) (window : Int)
    (encode : String → Except String (List Int)) : Except String (List prompt) := do
  let ps ← segment loadedModelSystem messages
  let ps1 ← costPass tmpl encode ps
  truncLoop tmpl encode window ps1

/-- `ChatPrompt` from the Go source.  Note that, as in the source, the
`system` argument is never read: the first prompt is seeded from the global
loaded model's system prompt (`loadedModelSystem`). -/
def ChatPrompt (loadedModelSystem : String) (tmpl : List Node) (system : String)
    (messages : List Message) (window : Int)
    (encode : String → Except String (List Int)) : Except String String := do
  let ps ← survivingPrompts loadedModelSystem tmpl messages window encode
  pure (renderAll tmpl ps)

/-- Spec-side description of the placeholder text produced for `n` images
starting at global ordinal `c`: `" [img-c]"`, `" [img-(c+1)]"`, ... appended
in order. -/
def imgPlaceholders (c : Nat) : Nat → String
  | 0 => ""
  | n + 1 => " [img-" ++ toString c ++ "]" ++ imgPlaceholders (c + 1) n

/-- Spec-side description of the image records produced for payloads `datas`
starting at global ordinal `c`: one record per payload, ordinals increasing
by one. -/
def imageRecords (c : Nat) : List (List Nat) → List ImageData
  | [] => []
  | d :: rest => { ID := c, Data := d } :: imageRecords (c + 1) rest

/-! ### Renderer lemmas -/

theorem firstResponseIdx_eq_none_iff (nodes : List Node) :
    firstResponseIdx nodes = none ↔ ∀ n ∈ nodes, isResponseAction n = false := by
  induction nodes with
  | nil => simp [firstResponseIdx]
  | cons a l ih =>
    by_cases ha : isResponseAction a
    · simp [firstResponseIdx, ha]
    · simp [firstResponseIdx, ha, ih]

theorem isResponseAction_marker : isResponseAction responseActionNode = true := by
  decide

theorem firstResponseIdx_append_marker (nodes : List Node)
    (h : ∀ n ∈ nodes, isResponseAction n = false) :
    firstResponseIdx (nodes ++ [responseActionNode]) = some nodes.length := by
  induction nodes with
  | nil => simp [firstResponseIdx, isResponseAction_marker]
  | cons a l ih =>
    have ha : isResponseAction a = false := h a (List.mem_cons_self a l)
    simp [firstResponseIdx, ha, ih fun n hn => h n (List.mem_cons_of_mem a hn)]

theorem firstResponseIdx_take (nodes : List Node) (i : Nat)
    (h : firstResponseIdx nodes = some i) :
    firstResponseIdx (nodes.take (i + 1)) = some i := by
  induction nodes generalizing i with
  | nil => simp [firstResponseIdx] at h
  | cons a l ih =>
    by_cases ha : isResponseAction a
    · simp [firstResponseIdx, ha] at h
      subst h
      simp [firstResponseIdx, ha]
    · simp only [firstResponseIdx, ha, if_false, Bool.false_eq_true] at h
      obtain ⟨j, hj, rfl⟩ := Option.map_eq_some'.mp h
      simp only [List.take_succ_cons, firstResponseIdx, ha, if_false, Bool.false_eq_true,
        ih j hj, Option.map_some']

theorem firstResponseIdx_spec (nodes : List Node) (i : Nat)
    (h : firstResponseIdx nodes = some i) :
    (∀ n ∈ nodes.take i, isResponseAction n = false)
    ∧ ∃ n, nodes[i]? = some n ∧ isResponseAction n = true := by
  induction nodes generalizing i with
  | nil => simp [firstResponseIdx] at h
  | cons a l ih =>
    by_cases ha : isResponseAction a
    · simp [firstResponseIdx, ha] at h
      subst h
      simp [ha]
    · simp only [firstResponseIdx, ha, if_false, Bool.false_eq_true] at h
      obtain ⟨j, hj, rfl⟩ := Option.map_eq_some'.mp h
      obtain ⟨h1, h2⟩ := ih j hj
      refine ⟨?_, ?_⟩
      · intro n hn
        rcases List.mem_cons.mp (by simpa using hn) with rfl | hn'
        · simpa using ha
        · exact h1 n hn'
      · simpa using h2

theorem execNodes_append (s p r : String) (l1 l2 : List Node) :
    execNodes s p r (l1 ++ l2) = execNodes s p r l1 ++ execNodes s p r l2 := by
  induction l1 with
  | nil => simp [execNodes]
  | cons a l ih => simp [execNodes, ih, String.append_assoc]

theorem execNodes_marker (s p r : String) :
    execNodes s p r [responseActionNode] = r := by
  simp [execNodes, execNode, execPipe, execArg, lookupVar,
    responseActionNode, responsePipeNode, responseFieldNode]

theorem formatTemplateForResponse_idem (nodes : List Node) (cut : Bool) :
    formatTemplateForResponse (formatTemplateForResponse nodes cut) cut
      = formatTemplateForResponse nodes cut := by
  cases h : firstResponseIdx nodes with
  | none =>
    have hall : ∀ n ∈ nodes, isResponseAction n = false :=
      (firstResponseIdx_eq_none_iff nodes).mp h
    have hin : formatTemplateForResponse nodes cut = nodes ++ [responseActionNode] := by
      unfold formatTemplateForResponse
      rw [h]
    rw [hin]
    unfold formatTemplateForResponse
    rw [firstResponseIdx_append_marker nodes hall]
    cases cut with
    | false => simp
    | true =>
      simp only [if_true]
      rw [show nodes.length + 1 = (nodes ++ [responseActionNode]).length by simp,
        List.take_length]
  | some i =>
    cases cut with
    | false =>
      have hin : formatTemplateForResponse nodes false = nodes := by
        unfold formatTemplateForResponse
        rw [h]
        simp
      rw [hin, hin]
    | true =>
      have hin : formatTemplateForResponse nodes true = nodes.take (i + 1) := by
        unfold formatTemplateForResponse
        rw [h]
        simp
      rw [hin]
      unfold formatTemplateForResponse
      rw [firstResponseIdx_take nodes i h]
      simp [List.take_take]

/-- C5: for a template whose top-level node sequence contains no action node
referencing `.Response`, rendering with any `cut` value appends a bare
`.Response` field-reference node at the end, so the result is the rendering
of the original tree followed by the bound response text verbatim; and for a
template whose first `.Response`-referencing action node sits at index `i`,
rendering with `cut = true` keeps exactly the top-level nodes up to and
including index `i` (no node before `i` references `.Response`, the node at
`i` does), so nothing after the first response reference appears in the
result. -/
theorem C5_marker_insertion_and_cut (tmpl : List Node) (sys pr resp : String) :
    ((∀ n ∈ tmpl, isResponseAction n = false) →
      ∀ cut, Prompt tmpl sys pr resp cut = execNodes sys pr resp tmpl ++ resp)
    ∧ (∀ i, firstResponseIdx tmpl = some i →
      Prompt tmpl sys pr resp true = execNodes sys pr resp (tmpl.take (i + 1))
      ∧ (∀ n ∈ tmpl.take i, isResponseAction n = false)
      ∧ ∃ n, tmpl[i]? = some n ∧ isResponseAction n = true) := by
  constructor
  · intro h cut
    have hnone : firstResponseIdx tmpl = none :=
      (firstResponseIdx_eq_none_iff tmpl).mpr h
    unfold Prompt formatTemplateForResponse
    rw [hnone, execNodes_append, execNodes_marker]
  · intro i h
    have hin : formatTemplateForResponse tmpl true = tmpl.take (i + 1) := by
      unfold formatTemplateForResponse
      rw [h]
      simp
    exact ⟨by unfold Prompt; rw [hin],
      (firstResponseIdx_spec tmpl i h).1, (firstResponseIdx_spec tmpl i h).2⟩

/-- C5 witness: a concrete marker-free template and a concrete template with
a marker at index 1, instantiating both halves of the claim. -/
theorem C5_marker_insertion_and_cut_witness :
    ((∀ n ∈ ([Node.text "a"] : List Node), isResponseAction n = false)
      ∧ Prompt [Node.text "a"] "s" "p" "r" false
          = execNodes "s" "p" "r" [Node.text "a"] ++ "r")
    ∧ (firstResponseIdx [Node.text "a", responseActionNode, Node.text "b"] = some 1
      ∧ Prompt [Node.text "a", responseActionNode, Node.text "b"] "s" "p" "r" true
          = execNodes "s" "p" "r"
              (([Node.text "a", responseActionNode, Node.text "b"] : List Node).take 2)) :=
  ⟨⟨by decide,
    (C5_marker_insertion_and_cut [Node.text "a"] "s" "p" "r").1 (by decide) false⟩,
   ⟨by decide,
    ((C5_marker_insertion_and_cut
      [Node.text "a", responseActionNode, Node.text "b"] "s" "p" "r").2 1 (by decide)).1⟩⟩

/-- C9: a render call never leaks state into another render call.  In the
source every call compiles its own fresh tree, and the only mutation a call
performs is `formatTemplateForResponse`; rendering a tree that has already
been formatted by a previous call with the same `cut` flag yields exactly the
same string as rendering the freshly compiled tree, so two invocations with
identical inputs return identical results even if the compiled tree were
reused. -/
theorem C9_render_pure (tmpl : List Node) (sys pr resp : String) (cut : Bool) :
    Prompt (formatTemplateForResponse tmpl cut) sys pr resp cut
      = Prompt tmpl sys pr resp cut := by
  unfold Prompt
  rw [formatTemplateForResponse_idem]

/-! ### Segmentation lemmas -/

theorem addImages_spec (datas : List (List Nat)) (p : prompt) (c : Nat) :
    addImages p datas c
      = ({ p with
            Prompt := p.Prompt ++ imgPlaceholders c datas.length,
            Images := p.Images ++ imageRecords c datas },
         c + datas.length) := by
  induction datas generalizing p c with
  | nil => simp [addImages, imgPlaceholders, imageRecords]
  | cons d rest ih =>
    simp only [addImages, ih, imgPlaceholders, imageRecords, List.length_cons]
    refine Prod.ext ?_ (by omega)
    simp [String.append_assoc, List.append_assoc]

/-- C8: processing a user message carrying images appends, immediately after
the message text, one placeholder of the exact form `" [img-N]"` per image,
with N the running global ordinal (`c`, `c+1`, ...), appends an `ImageData`
record with the same ordinal to the current turn in order, and continues with
the ordinal advanced by the image count (never reset per turn). -/
theorem C8_image_placeholders (rest : List Message) (ps : List prompt) (p : prompt)
    (c : Nat) (m : Message) (hrole : strToLower m.Role = "user") :
    segMsgs (m :: rest) ps p c =
      segMsgs rest
        (if p.prompt || p.response then ps ++ [p] else ps)
        { (if p.prompt || p.response then ({} : prompt) else p) with
            Prompt := m.Content ++ imgPlaceholders c m.Images.length,
            prompt := true,
            Images := (if p.prompt || p.response then ({} : prompt) else p).Images
              ++ imageRecords c m.Images }
        (c + m.Images.length) := by
  simp only [segMsgs, hrole, addImages_spec]
  simp only [show (("user" : String) == "system") = false from rfl,
    show (("user" : String) == "user") = true from rfl,
    Bool.false_eq_true, if_false, if_true]

/-- C8 witness: one user message with two images, processed at global ordinal
5, yields `" [img-5]"` then `" [img-6]"` after the message text and image
records 5 and 6, continuing at ordinal 7. -/
theorem C8_image_placeholders_witness :
    strToLower "user" = "user"
    ∧ segMsgs [{ Role := "user", Content := "hi", Images := [[1], [2]] }] [] ({} : prompt) 5 =
        segMsgs []
          (if ({} : prompt).prompt || ({} : prompt).response
            then [] ++ [({} : prompt)] else [])
          { (if ({} : prompt).prompt || ({} : prompt).response then ({} : prompt)
              else ({} : prompt)) with
              Prompt := "hi" ++ imgPlaceholders 5 2,
              prompt := true,
              Images := (if ({} : prompt).prompt || ({} : prompt).response
                then ({} : prompt) else ({} : prompt)).Images ++ imageRecords 5 [[1], [2]] }
          (5 + 2) :=
  ⟨by decide,
    C8_image_placeholders [] [] ({} : prompt) 5
      { Role := "user", Content := "hi", Images := [[1], [2]] } (by decide)⟩

/-- A role is recognized when its lower-cased form is one of the three switch
cases of the message walk. -/
def validRole (role : String) : Bool :=
  strToLower role == "system" || strToLower role == "user"
    || strToLower role == "assistant"

theorem segMsgs_invalid_role (pre : List Message) (m : Message) (post : List Message)
    (hpre : ∀ x ∈ pre, validRole x.Role = true)
    (hm : validRole m.Role = false) :
    ∀ ps p c, segMsgs (pre ++ m :: post) ps p c
      = .error ("invalid role: " ++ m.Role
          ++ ", role must be one of [system, user, assistant]") := by
  induction pre with
  | nil =>
    intro ps p c
    simp only [validRole, Bool.or_eq_false_iff] at hm
    simp only [List.nil_append, segMsgs, hm.1.1, hm.1.2, hm.2,
      Bool.false_eq_true, if_false]
  | cons x pre ih =>
    intro ps p c
    have hx : validRole x.Role = true := hpre x (List.mem_cons_self x pre)
    have hpre2 : ∀ y ∈ pre, validRole y.Role = true :=
      fun y hy => hpre y (List.mem_cons_of_mem x hy)
    have hcase : strToLower x.Role = "system" ∨ strToLower x.Role = "user"
        ∨ strToLower x.Role = "assistant" := by
      simpa [validRole, or_assoc] using hx
    rcases hcase with h | h | h <;>
      simp only [List.cons_append, segMsgs, h,
        show (("system" : String) == "system") = true from rfl,
        show (("user" : String) == "system") = false from rfl,
        show (("user" : String) == "user") = true from rfl,
        show (("assistant" : String) == "system") = false from rfl,
        show (("assistant" : String) == "user") = false from rfl,
        show (("assistant" : String) == "assistant") = true from rfl,
        Bool.false_eq_true, if_false, if_true] <;>
      exact ih hpre2 _ _ _

/-- C7: a message list whose first invalid-role message is `m` (every message
before it has a recognized role) makes `ChatPrompt` fail with the
invalid-role error naming `m`'s role, for every window and every encoder: the
result is the error value (the Go function returns the empty string alongside
it), the estimator is never consulted (the right-hand side does not depend on
`encode`), and nothing after `m` is processed (it does not depend on `post`
either). -/
theorem C7_invalid_role_aborts (g : String) (tmpl : List Node) (system : String)
    (pre : List Message) (m : Message) (post : List Message) (window : Int)
    (encode : String → Except String (List Int))
    (hpre : ∀ x ∈ pre, validRole x.Role = true)
    (hm : validRole m.Role = false) :
    ChatPrompt g tmpl system (pre ++ m :: post) window encode
      = .error ("invalid role: " ++ m.Role
          ++ ", role must be one of [system, user, assistant]") := by
  unfold ChatPrompt survivingPrompts segment
  simp only [segMsgs_invalid_role pre m post hpre hm]
  rfl

/-- C7 witness: a valid user message followed by role `"moderator"` aborts
with the invalid-role error. -/
theorem C7_invalid_role_aborts_witness :
    validRole "moderator" = false
    ∧ ChatPrompt "" [] ""
        [{ Role := "user", Content := "hi", Images := [] },
         { Role := "moderator", Content := "x", Images := [] }] 0 (fun _ => .ok [])
      = .error "invalid role: moderator, role must be one of [system, user, assistant]" :=
  ⟨by decide,
    C7_invalid_role_aborts "" [] "" [{ Role := "user", Content := "hi", Images := [] }]
      { Role := "moderator", Content := "x", Images := [] } [] 0 (fun _ => .ok [])
      (by decide) (by decide)⟩

/-- C10 counterexample: the claim promises exactly the same final result when
a role is replaced by a case-variant, but for an unrecognized role the error
message quotes the role verbatim, so `"moderator"` and `"Moderator"` yield
different results. -/
theorem C10_case_counterexample :
    ChatPrompt "" [] "" [{ Role := "moderator", Content := "", Images := [] }] 0
        (fun _ => .ok [])
      ≠ ChatPrompt "" [] "" [{ Role := "Moderator", Content := "", Images := [] }] 0
        (fun _ => .ok []) := by
  intro h
  rw [show ChatPrompt "" [] "" [{ Role := "moderator", Content := "", Images := [] }] 0
        (fun _ => .ok [])
      = .error "invalid role: moderator, role must be one of [system, user, assistant]"
      from rfl,
    show ChatPrompt "" [] "" [{ Role := "Moderator", Content := "", Images := [] }] 0
        (fun _ => .ok [])
      = .error "invalid role: Moderator, role must be one of [system, user, assistant]"
      from rfl] at h
  injection h with h2
  exact absurd h2 (by decide)

/-- Two messages that differ only in the letter case of the role. -/
def caseVariant (m m2 : Message) : Prop :=
  strToLower m2.Role = strToLower m.Role ∧ m2.Content = m.Content ∧ m2.Images = m.Images

theorem segMsgs_caseVariant (msgs msgs2 : List Message)
    (hvar : List.Forall₂ caseVariant msgs msgs2)
    (hvalid : ∀ m ∈ msgs, validRole m.Role = true) :
    ∀ ps p c, segMsgs msgs ps p c = segMsgs msgs2 ps p c := by
  induction hvar with
  | nil => intro ps p c; rfl
  | cons hab hrest ih =>
    rename_i a b as bs
    intro ps p c
    obtain ⟨hrole, hcont, himgs⟩ := hab
    have ha : validRole a.Role = true := hvalid a (List.mem_cons_self a as)
    have hvalid2 : ∀ m ∈ as, validRole m.Role = true :=
      fun m hm => hvalid m (List.mem_cons_of_mem a hm)
    have hcase : strToLower a.Role = "system" ∨ strToLower a.Role = "user"
        ∨ strToLower a.Role = "assistant" := by
      simpa [validRole, or_assoc] using ha
    rcases hcase with h | h | h <;>
      simp only [segMsgs, h, hrole, hcont, himgs,
        show (("system" : String) == "system") = true from rfl,
        show (("user" : String) == "system") = false from rfl,
        show (("user" : String) == "user") = true from rfl,
        show (("assistant" : String) == "system") = false from rfl,
        show (("assistant" : String) == "user") = false from rfl,
        show (("assistant" : String) == "assistant") = true from rfl,
        Bool.false_eq_true, if_false, if_true] <;>
      exact ih hvalid2 _ _ _

/-- C10 amended: role matching is case-insensitive for recognized roles — if
every message's lower-cased role is one of system/user/assistant, replacing
roles by case-variants (same lower-cased role, same content and images)
yields exactly the same segmentation and final result; an invalid-role error
occurs exactly when some lower-cased role matches none of the three, but in
that case the error message quotes the offending role verbatim, so the error
values of two case-variants can differ. -/
theorem C10_case_insensitive_amended (g : String) (tmpl : List Node) (system : String)
    (window : Int) (encode : String → Except String (List Int))
    (msgs msgs2 : List Message)
    (hvar : List.Forall₂ caseVariant msgs msgs2)
    (hvalid : ∀ m ∈ msgs, validRole m.Role = true) :
    ChatPrompt g tmpl system msgs window encode
      = ChatPrompt g tmpl system msgs2 window encode := by
  unfold ChatPrompt survivingPrompts segment
  simp only [segMsgs_caseVariant msgs msgs2 hvar hvalid]

/-- C10 amended witness: `"user"` versus `"USER"`. -/
theorem C10_case_insensitive_amended_witness :
    ChatPrompt "" [] "" [{ Role := "user", Content := "hi", Images := [] }] 0
        (fun _ => .ok [])
      = ChatPrompt "" [] "" [{ Role := "USER", Content := "hi", Images := [] }] 0
        (fun _ => .ok []) :=
  C10_case_insensitive_amended "" [] "" 0 (fun _ => .ok [])
    [{ Role := "user", Content := "hi", Images := [] }]
    [{ Role := "USER", Content := "hi", Images := [] }]
    (List.Forall₂.cons ⟨by decide, rfl, rfl⟩ List.Forall₂.nil) (by decide)

/-! ### C1: the token-costing pass does not persist its results -/

def c1Tmpl : List Node := [.action { Cmds := [{ Args := [.field ["Prompt"]] }] }]

def c1Enc : String → Except String (List Int) := fun s => .ok (List.replicate s.length 0)

def c1Turn : prompt := { System := "", system := true, Prompt := "hello", prompt := true }

/-- C1 (code bug): for the single user message `"hello"` under a
`{{.Prompt}}` template and a one-token-per-character encoder, the estimator
prices the segmented turn at 5 tokens, but the costing pass returns the turn
list unchanged with `tokens` still 0 — the Go loop iterates by value, so the
computed cost is written to a copy and the total seen by the truncation loop
is 0, not the sum of freshly computed costs. -/
theorem C1_token_costs_not_persisted :
    segment "" [{ Role := "user", Content := "hello", Images := [] }] = .ok [c1Turn]
    ∧ costPass c1Tmpl c1Enc [c1Turn] = .ok [c1Turn]
    ∧ c1Turn.tokens = 0
    ∧ countTokens c1Tmpl c1Turn.System c1Turn.Prompt c1Turn.Response c1Enc = .ok 5 := by
  refine ⟨rfl, rfl, rfl, rfl⟩

/-! ### Truncation-loop claims -/

/-- C2: in any truncation-loop state whose total exceeds the window and whose
oldest surviving turn holds more than one image, the loop's next action
removes exactly that turn's first image — which, when the turn's images carry
their segmentation ordering, is the one with the smallest ordinal — subtracts
768 from that turn's token cost, removes no turn, and leaves every other turn
(and the rest of this turn) unchanged. -/
theorem C2_image_truncation_step (tmpl : List Node)
    (encode : String → Except String (List Int)) (window : Int)
    (p : prompt) (rest : List prompt)
    (htot : window < totalTokens (p :: rest))
    (himg : 1 < p.Images.length)
    (hsorted : p.Images.Pairwise fun a b => a.ID ≤ b.ID) :
    ∃ i0 itail, p.Images = i0 :: itail
      ∧ truncLoop tmpl encode window (p :: rest)
          = truncLoop tmpl encode window
              ({ p with Images := itail, tokens := p.tokens - 768 } :: rest)
      ∧ ∀ img ∈ p.Images, i0.ID ≤ img.ID := by
  obtain ⟨i0, itail, hImgs⟩ : ∃ i0 itail, p.Images = i0 :: itail := by
    cases hI : p.Images with
    | nil => rw [hI] at himg; simp at himg
    | cons a l => exact ⟨a, l, rfl⟩
  refine ⟨i0, itail, hImgs, ?_, ?_⟩
  · conv_lhs => rw [truncLoop.eq_def]
    rw [if_neg (not_le.mpr htot)]
    dsimp only
    rw [dif_pos himg, hImgs]
    rfl
  · rw [hImgs] at hsorted ⊢
    intro img hmem
    rcases List.mem_cons.mp hmem with rfl | hmem2
    · exact le_refl _
    · exact (List.pairwise_cons.mp hsorted).1 img hmem2

theorem imageRecords_id_ge (datas : List (List Nat)) :
    ∀ c, ∀ x ∈ imageRecords c datas, c ≤ x.ID := by
  induction datas with
  | nil => intro c x hx; simp [imageRecords] at hx
  | cons d rest ih =>
    intro c x hx
    rcases List.mem_cons.mp hx with rfl | hx2
    · exact le_refl _
    · exact le_trans (Nat.le_succ c) (ih (c + 1) x hx2)

/-- The images a turn receives during segmentation carry increasing ordinals,
so the sortedness hypothesis of the image-truncation step holds of every turn
the segmentation produces. -/
theorem imageRecords_pairwise (datas : List (List Nat)) (c : Nat) :
    (imageRecords c datas).Pairwise fun a b => a.ID ≤ b.ID := by
  induction datas generalizing c with
  | nil => simp [imageRecords]
  | cons d rest ih =>
    refine List.pairwise_cons.mpr ⟨?_, ih (c + 1)⟩
    intro x hx
    exact le_trans (Nat.le_succ c) (imageRecords_id_ge rest (c + 1) x hx)

def c2P : prompt :=
  { Prompt := "u", prompt := true, tokens := 2000,
    Images := [{ ID := 0, Data := [] }, { ID := 1, Data := [] }] }

/-- C2 witness: a head turn with two images (ordinals 0 and 1) and cost 2000
against window 0: the next action drops image 0 and 768 tokens. -/
theorem C2_image_truncation_step_witness :
    ((0 : Int) < totalTokens [c2P] ∧ 1 < c2P.Images.length)
    ∧ ∃ i0 itail, c2P.Images = i0 :: itail
      ∧ truncLoop [] (fun _ => .ok []) 0 [c2P]
          = truncLoop [] (fun _ => .ok []) 0
              [{ c2P with Images := itail, tokens := c2P.tokens - 768 }]
      ∧ ∀ img ∈ c2P.Images, i0.ID ≤ img.ID :=
  ⟨⟨by decide, by decide⟩,
    C2_image_truncation_step [] (fun _ => .ok []) 0 c2P [] (by decide) (by decide)
      (by simp [c2P, List.pairwise_cons])⟩

/-- C3: in any truncation-loop state whose total exceeds the window, whose
oldest of at least two surviving turns has at most one image: removing the
oldest turn with a non-empty instruction stops the loop unconditionally —
if the new oldest turn lacks an instruction it receives the removed turn's
instruction and its token cost is recomputed via the estimator plus 768 per
remaining image, otherwise the survivors are returned as they are — while
removing an oldest turn whose instruction is empty continues the loop on the
remaining turns. -/
theorem C3_instruction_carry_forward (tmpl : List Node)
    (encode : String → Except String (List Int)) (window : Int)
    (p q : prompt) (rs : List prompt)
    (htot : window < totalTokens (p :: q :: rs))
    (himg : ¬ 1 < p.Images.length) :
    (p.System ≠ "" →
        (q.System = "" →
          truncLoop tmpl encode window (p :: q :: rs)
            = match countTokens tmpl p.System q.Prompt q.Response encode with
              | .error e => .error e
              | .ok tokens =>
                .ok ({ q with
                       System := p.System,
                       tokens := tokens + (q.Images.length : Int) * 768 } :: rs))
      ∧ (q.System ≠ "" →
          truncLoop tmpl encode window (p :: q :: rs) = .ok (q :: rs)))
    ∧ (p.System = "" →
        truncLoop tmpl encode window (p :: q :: rs)
          = truncLoop tmpl encode window (q :: rs)) := by
  constructor
  · intro hp
    have hp2 : (p.System == "") = false := beq_eq_false_iff_ne.mpr hp
    constructor
    · intro hq
      have hq2 : (q.System == "") = true := beq_iff_eq.mpr hq
      conv_lhs => rw [truncLoop.eq_def]
      rw [if_neg (not_le.mpr htot)]
      dsimp only
      rw [dif_neg himg]
      simp only [hp2, hq2, Bool.false_eq_true, if_false, if_true]
    · intro hq
      have hq2 : (q.System == "") = false := beq_eq_false_iff_ne.mpr hq
      conv_lhs => rw [truncLoop.eq_def]
      rw [if_neg (not_le.mpr htot)]
      dsimp only
      rw [dif_neg himg]
      simp only [hp2, hq2, Bool.false_eq_true, if_false]
  · intro hp
    have hp2 : (p.System == "") = true := beq_iff_eq.mpr hp
    conv_lhs => rw [truncLoop.eq_def]
    rw [if_neg (not_le.mpr htot)]
    dsimp only
    rw [dif_neg himg]
    simp only [hp2, if_true]

def c3P : prompt := { System := "sys1", system := true, Prompt := "u1", prompt := true, tokens := 100 }

def c3Q : prompt := { Prompt := "u2", prompt := true }

/-- C3 witness: turns `[A(instruction "sys1"), B(no instruction)]` over a
window of 0: dropping A carries `"sys1"` onto B, recosts B, and the loop
stops. -/
theorem C3_instruction_carry_forward_witness :
    ((0 : Int) < totalTokens [c3P, c3Q] ∧ ¬ 1 < c3P.Images.length ∧ c3P.System ≠ "")
    ∧ truncLoop [] (fun _ => .ok []) 0 [c3P, c3Q]
        = match countTokens [] c3P.System c3Q.Prompt c3Q.Response (fun _ => .ok []) with
          | .error e => .error e
          | .ok tokens =>
            .ok [{ c3Q with
                   System := c3P.System,
                   tokens := tokens + (c3Q.Images.length : Int) * 768 }] :=
  ⟨⟨by decide, by decide, by decide⟩,
    (((C3_instruction_carry_forward [] (fun _ => .ok []) 0 c3P c3Q [] (by decide)
        (by decide)).1 (by decide)).1 rfl)⟩

/-! ### C4: the base instruction comes from the global loaded model -/

def c4Tmpl : List Node := [.action { Cmds := [{ Args := [.field ["System"]] }] }]

/-- C4 (code bug): under a `{{.System}}` template with no messages, the
result of `ChatPrompt` is the system prompt of the globally loaded model
(the package-level `loaded.Model.System`, threaded here as the first
argument), and is unchanged when the caller-supplied `system` argument is
replaced (`"A"` versus `"B"`), while changing the global (`"G"` versus
`"H"`) changes the result: the code seeds the first turn from mutable global
state and never reads the caller's argument. -/
theorem C4_base_instruction_from_global :
    ChatPrompt "G" c4Tmpl "A" [] 0 (fun _ => .ok []) = .ok "G"
    ∧ ChatPrompt "G" c4Tmpl "B" [] 0 (fun _ => .ok []) = .ok "G"
    ∧ ChatPrompt "H" c4Tmpl "A" [] 0 (fun _ => .ok []) = .ok "H"
    ∧ ChatPrompt "G" c4Tmpl "A" [] 0 (fun _ => .ok [])
        ≠ ChatPrompt "H" c4Tmpl "A" [] 0 (fun _ => .ok []) := by
  have htr : ∀ s : String,
      truncLoop c4Tmpl (fun _ => .ok []) 0 [{ System := s, system := true }]
        = .ok [{ System := s, system := true }] := by
    intro s
    rw [truncLoop.eq_def,
      if_pos (show totalTokens [{ System := s, system := true }] ≤ 0 from le_of_eq rfl)]
  have key : ∀ s a : String,
      ChatPrompt s c4Tmpl a [] 0 (fun _ => .ok [])
        = .ok (renderAll c4Tmpl [{ System := s, system := true }]) := by
    intro s a
    have step : ChatPrompt s c4Tmpl a [] 0 (fun _ => .ok [])
        = Except.bind (truncLoop c4Tmpl (fun _ => .ok []) 0 [{ System := s, system := true }])
            (fun ps => Except.ok (renderAll c4Tmpl ps)) := rfl
    rw [step, htr s]
    rfl
  have hG : ChatPrompt "G" c4Tmpl "A" [] 0 (fun _ => .ok []) = .ok "G" :=
    (key "G" "A").trans rfl
  have hG2 : ChatPrompt "G" c4Tmpl "B" [] 0 (fun _ => .ok []) = .ok "G" :=
    (key "G" "B").trans rfl
  have hH : ChatPrompt "H" c4Tmpl "A" [] 0 (fun _ => .ok []) = .ok "H" :=
    (key "H" "A").trans rfl
  refine ⟨hG, hG2, hH, ?_⟩
  intro hcontra
  rw [hG, hH] at hcontra
  injection hcontra with h2
  exact absurd h2 (by decide)

/-! ### C6: the truncation never empties the turn list -/

theorem segMsgs_flag (msgs : List Message) :
    ∀ ps p c ps2 p2, (p.system || p.prompt || p.response) = true →
      segMsgs msgs ps p c = .ok (ps2, p2) →
      (p2.system || p2.prompt || p2.response) = true := by
  induction msgs with
  | nil =>
    intro ps p c ps2 p2 hf h
    simp only [segMsgs, Except.ok.injEq, Prod.mk.injEq] at h
    obtain ⟨h1, h2⟩ := h
    subst h2
    exact hf
  | cons msg rest ih =>
    intro ps p c ps2 p2 hf h
    simp only [segMsgs] at h
    by_cases h1 : (strToLower msg.Role == "system") = true
    · rw [if_pos h1] at h
      exact ih _ _ _ _ _ (by simp) h
    · rw [if_neg h1] at h
      by_cases h2 : (strToLower msg.Role == "user") = true
      · rw [if_pos h2] at h
        simp only [addImages_spec] at h
        exact ih _ _ _ _ _ (by simp) h
      · rw [if_neg h2] at h
        by_cases h3 : (strToLower msg.Role == "assistant") = true
        · rw [if_pos h3] at h
          exact ih _ _ _ _ _ (by simp) h
        · rw [if_neg h3] at h
          exact absurd h (by simp)

theorem segment_eq (g : String) (msgs : List Message) :
    segment g msgs
      = match segMsgs msgs [] { System := g, system := true } 0 with
        | .error e => .error e
        | .ok r =>
          if (r.2.system || r.2.prompt || r.2.response) = true
          then .ok (r.1 ++ [r.2]) else .ok r.1 := by
  unfold segment
  dsimp only
  cases hr : segMsgs msgs [] { System := g, system := true } 0 with
  | error e => rfl
  | ok r => rfl

theorem segment_ne_nil (g : String) (msgs : List Message) (l : List prompt)
    (h : segment g msgs = .ok l) : l ≠ [] := by
  rw [segment_eq] at h
  cases hr : segMsgs msgs [] { System := g, system := true } 0 with
  | error e =>
    rw [hr] at h
    simp at h
  | ok r =>
    rw [hr] at h
    obtain ⟨ps1, p1⟩ := r
    have hflag : (p1.system || p1.prompt || p1.response) = true :=
      segMsgs_flag msgs [] _ 0 ps1 p1 (by simp) hr
    simp only at h
    rw [if_pos hflag] at h
    injection h with h2
    rw [← h2]
    simp

theorem costPass_ok_id (tmpl : List Node) (encode : String → Except String (List Int)) :
    ∀ ps qs, costPass tmpl encode ps = .ok qs → qs = ps := by
  intro ps
  induction ps with
  | nil =>
    intro qs h
    have h2 : Except.ok ([] : List prompt) = Except.ok qs := h
    injection h2 with h3
    exact h3.symm
  | cons p rest ih =>
    intro qs h
    unfold costPass at h
    cases hct : countTokens tmpl p.System p.Prompt p.Response encode with
    | error e =>
      simp only [hct] at h
      have h2 : (Except.error e : Except String (List prompt)) = Except.ok qs := h
      simp at h2
    | ok t =>
      simp only [hct] at h
      cases hcp : costPass tmpl encode rest with
      | error e =>
        simp only [hcp] at h
        have h2 : (Except.error e : Except String (List prompt)) = Except.ok qs := h
        simp at h2
      | ok rest1 =>
        simp only [hcp] at h
        have h2 : Except.ok (p :: rest1) = Except.ok qs := h
        injection h2 with h3
        rw [← h3, ih rest1 hcp]

theorem truncLoop_ok_ne_nil (tmpl : List Node) (encode : String → Except String (List Int))
    (window : Int) (ps : List prompt) :
    ∀ qs, truncLoop tmpl encode window ps = .ok qs → ps ≠ [] → qs ≠ [] := by
  refine truncLoop.induct tmpl encode window
    (fun l => ∀ qs, truncLoop tmpl encode window l = .ok qs → l ≠ [] → qs ≠ [])
    ?_ ?_ ?_ ?_ ?_ ?_ ?_ ?_ ps
  · intro x hle qs hq hne
    rw [truncLoop.eq_def, if_pos hle] at hq
    injection hq with h2
    rw [← h2]
    exact hne
  · intro h qs hq hne
    exact absurd rfl hne
  · intro p rest himg htot ih qs hq hne
    rw [truncLoop.eq_def, if_neg htot] at hq
    try dsimp only at hq
    rw [dif_pos himg] at hq
    exact ih qs hq (by simp)
  · intro p himg htot qs hq hne
    rw [truncLoop.eq_def, if_neg htot] at hq
    try dsimp only at hq
    rw [dif_neg himg] at hq
    try dsimp only at hq
    injection hq with h2
    rw [← h2]
    simp
  · intro p himg q rs hsys htot ih qs hq hne
    rw [truncLoop.eq_def, if_neg htot] at hq
    try dsimp only at hq
    rw [dif_neg himg] at hq
    try dsimp only at hq
    rw [if_pos hsys] at hq
    exact ih qs hq (by simp)
  · intro p himg q rs hsys hqsys e hct htot qs hq hne
    rw [truncLoop.eq_def, if_neg htot] at hq
    try dsimp only at hq
    rw [dif_neg himg] at hq
    try dsimp only at hq
    rw [if_neg hsys, if_pos hqsys, hct] at hq
    simp at hq
  · intro p himg q rs hsys hqsys tk hct htot qs hq hne
    rw [truncLoop.eq_def, if_neg htot] at hq
    try dsimp only at hq
    rw [dif_neg himg] at hq
    try dsimp only at hq
    rw [if_neg hsys, if_pos hqsys, hct] at hq
    try dsimp only at hq
    injection hq with h2
    rw [← h2]
    simp
  · intro p himg q rs hsys hqsys htot qs hq hne
    rw [truncLoop.eq_def, if_neg htot] at hq
    try dsimp only at hq
    rw [dif_neg himg] at hq
    try dsimp only at hq
    rw [if_neg hsys, if_neg hqsys] at hq
    injection hq with h2
    rw [← h2]
    simp

/-- C6: whenever `ChatPrompt` succeeds, the list of turns surviving at the
final-render step is non-empty — for every window, including 0, the
truncation loop never removes the last remaining turn — and the returned
string is the concatenation of the renderings of those (at least one)
turns. -/
theorem C6_never_empty_result (g : String) (tmpl : List Node) (system : String)
    (msgs : List Message) (window : Int) (encode : String → Except String (List Int))
    (out : String)
    (h : ChatPrompt g tmpl system msgs window encode = .ok out) :
    ∃ p ps, survivingPrompts g tmpl msgs window encode = .ok (p :: ps)
      ∧ out = renderAll tmpl (p :: ps) := by
  cases hs : survivingPrompts g tmpl msgs window encode with
  | error e =>
    have hcp : ChatPrompt g tmpl system msgs window encode
        = Except.bind (survivingPrompts g tmpl msgs window encode)
            (fun l => Except.ok (renderAll tmpl l)) := rfl
    rw [hcp, hs] at h
    have h2 : (Except.error e : Except String String) = Except.ok out := h
    simp at h2
  | ok l =>
    have hcp : ChatPrompt g tmpl system msgs window encode
        = Except.bind (survivingPrompts g tmpl msgs window encode)
            (fun l => Except.ok (renderAll tmpl l)) := rfl
    rw [hcp, hs] at h
    have h2 : Except.ok (renderAll tmpl l) = Except.ok out := h
    injection h2 with h3
    have hsv : survivingPrompts g tmpl msgs window encode
        = Except.bind (segment g msgs) (fun l1 =>
            Except.bind (costPass tmpl encode l1) (fun l2 =>
              truncLoop tmpl encode window l2)) := rfl
    rw [hsv] at hs
    cases hseg : segment g msgs with
    | error e =>
      rw [hseg] at hs
      have h4 : (Except.error e : Except String (List prompt)) = Except.ok l := hs
      simp at h4
    | ok l1 =>
      rw [hseg] at hs
      have hs2 : Except.bind (costPass tmpl encode l1) (fun l2 =>
          truncLoop tmpl encode window l2) = Except.ok l := hs
      cases hcost : costPass tmpl encode l1 with
      | error e =>
        rw [hcost] at hs2
        have h4 : (Except.error e : Except String (List prompt)) = Except.ok l := hs2
        simp at h4
      | ok l2 =>
        rw [hcost] at hs2
        have htr : truncLoop tmpl encode window l2 = Except.ok l := hs2
        have hl2 : l2 = l1 := costPass_ok_id tmpl encode l1 l2 hcost
        have hl1ne : l1 ≠ [] := segment_ne_nil g msgs l1 hseg
        have hlne : l ≠ [] :=
          truncLoop_ok_ne_nil tmpl encode window l2 l htr (hl2 ▸ hl1ne)
        cases l with
        | nil => exact absurd rfl hlne
        | cons p ps2 =>
          exact ⟨p, ps2, rfl, h3.symm⟩

/-- C6 witness: the empty message list at window 0 succeeds with the single
pre-seeded turn surviving. -/
theorem C6_never_empty_result_witness :
    ChatPrompt "" [] "" [] 0 (fun _ => .ok []) = .ok ""
    ∧ ∃ p ps, survivingPrompts "" [] [] 0 (fun _ => .ok []) = .ok (p :: ps)
      ∧ "" = renderAll [] (p :: ps) := by
  have htr0 : truncLoop [] (fun _ => .ok []) 0 [{ System := "", system := true }]
      = .ok [{ System := "", system := true }] := by
    rw [truncLoop.eq_def,
      if_pos (show totalTokens [{ System := "", system := true }] ≤ 0 from le_of_eq rfl)]
  have step : ChatPrompt "" [] "" [] 0 (fun _ => .ok [])
      = Except.bind (truncLoop [] (fun _ => .ok []) 0 [{ System := "", system := true }])
          (fun l => Except.ok (renderAll [] l)) := rfl
  have hok : ChatPrompt "" [] "" [] 0 (fun _ => .ok []) = .ok "" := by
    rw [step, htr0]
    rfl
  exact ⟨hok, C6_never_empty_result "" [] "" [] 0 (fun _ => .ok []) "" hok⟩

end OllamaPrompt
